import Mathlib

/-!
Shallow embedding of the queue-state machine of the content-publishing bot
(source files bot.py and content_generator.py).

A queued post is a JSON object with keys id, title, text, published; the
Python code reads them with dict.get and tolerates absent keys, so a `Post`
carries each field as an `Option`.  The persisted queue file
content_queue.json is modelled by `FileData`: it is absent, or holds the
JSON text of a queue of posts, or holds text that does not parse as JSON.
The JSON serialization layer (json.dump / json.load) is modelled by
`encodeQueue` / `decodeQueue` below; for well-typed data the round trip is
the identity, which is proved rather than assumed.

Python exceptions that the queue operations can raise are modelled by
`PyErr` and `Except`: json.load raises on malformed data (a storage error),
and a subscript post[...] raises KeyError when the key is absent.
-/

/-- A post record: one JSON object of the queue.  Each field is optional
because the source reads posts with dict.get and a post loaded from disk may
lack any key. -/
structure Post where
  id : Option Int
  title : Option String
  text : Option String
  published : Option Bool
deriving DecidableEq

/-- JSON values, as stored in content_queue.json. -/
inductive Json where
  | null
  | bool (b : Bool)
  | int (n : Int)
  | str (s : String)
  | arr (elems : List Json)
  | obj (fields : List (String × Json))

/-- Errors the queue operations can raise: a json.JSONDecodeError from
json.load on malformed persisted data (the storage error of the spec), and a
KeyError from a post[...] subscript on a missing key. -/
inductive PyErr where
  | storageError
  | keyError
deriving DecidableEq

/-- State of the persisted queue file content_queue.json.  `queueFile q`
stands for the file holding the JSON text of the queue `q` (the text layer
is `encodeQueue`, and `decodeQueue` recovers `q` from it, proved below);
`malformedFile` is a file whose contents do not parse as JSON. -/
inductive FileData where
  | absent
  | queueFile (q : List Post)
  | malformedFile
deriving DecidableEq

/-- One optional key of a serialized post: present fields become one
key-value pair, absent fields are omitted, as json.dump does for a dict that
never had the key. -/
def optField (k : String) : Option Json → List (String × Json)
  | some v => [(k, v)]
  | none => []

/-- The JSON object json.dump writes for one post dict. -/
def postToJson (p : Post) : Json :=
  Json.obj (optField "id" (p.id.map Json.int)
    ++ optField "title" (p.title.map Json.str)
    ++ optField "text" (p.text.map Json.str)
    ++ optField "published" (p.published.map Json.bool))

/-- The JSON array json.dump writes for a whole queue. -/
def encodeQueue (q : List Post) : Json :=
  Json.arr (q.map postToJson)

/-- Key lookup in a parsed JSON object, as dict.get does. -/
def lookupField (fields : List (String × Json)) (k : String) : Option Json :=
  match fields with
  | [] => none
  | (k2, v) :: rest => if k2 = k then some v else lookupField rest k

/-- An integer JSON value. -/
def asInt : Json → Option Int
  | .int n => some n
  | _ => none

/-- A string JSON value. -/
def asStr : Json → Option String
  | .str s => some s
  | _ => none

/-- A boolean JSON value. -/
def asBool : Json → Option Bool
  | .bool b => some b
  | _ => none

/-- Read one optional, typed field of a parsed post object: an absent key
yields `some none`, a present key of the right type yields `some (some v)`,
a present key of the wrong type yields `none` (the object is not a
well-typed post). -/
def decodeField (fields : List (String × Json)) (k : String)
    (dec : Json → Option A) : Option (Option A) :=
  match lookupField fields k with
  | none => some none
  | some v => (dec v).map some

/-- The typed view of one parsed JSON post object. -/
def decodePost : Json → Option Post
  | .obj fields =>
    match decodeField fields "id" asInt, decodeField fields "title" asStr,
        decodeField fields "text" asStr, decodeField fields "published" asBool with
    | some i, some t, some x, some b =>
      some { id := i, title := t, text := x, published := b }
    | _, _, _, _ => none
  | _ => none

/-- The typed view of a list of parsed JSON post objects. -/
def decodePosts : List Json → Option (List Post)
  | [] => some []
  | x :: xs =>
    match decodePost x, decodePosts xs with
    | some p, some ps => some (p :: ps)
    | _, _ => none

/-- The typed view of a parsed JSON queue. -/
def decodeQueue : Json → Option (List Post)
  | .arr xs => decodePosts xs
  | _ => none

/-- Python str.strip() with no argument: the string without its leading and
trailing whitespace. -/
def pyStrip (s : String) : String :=
  String.mk (((s.toList.dropWhile Char.isWhitespace).reverse.dropWhile
    Char.isWhitespace).reverse)

namespace Bot

/-- bot.py: QUEUE_FILE = Path(__file__).parent / "content_queue.json";
bot.py lives in the src directory. -/
def QUEUE_FILE : String := "src/content_queue.json"

/-- bot.py load_queue: return [] when the file does not exist, else
json.load it; json.load raises on malformed contents and load_queue has no
handler, so the error propagates. -/
def load_queue : FileData → Except PyErr (List Post)
  | .absent => .ok []
  | .queueFile q => .ok q
  | .malformedFile => .error .storageError

/-- bot.py save_queue: json.dump the whole queue into the file, overwriting
it. -/
def save_queue (queue : List Post) : FileData :=
  .queueFile queue

/-- bot.py get_next_post: the for-loop returning the first post with
`not post.get("published", False)`, or None when the loop finishes. -/
def get_next_post : List Post → Option Post
  | [] => none
  | post :: rest =>
    if post.published.getD false then get_next_post rest else some post

/-- The for-loop of bot.py mark_published: set published = True on the
first post whose `post.get("id")` equals post_id, then break; posts past
the first match are left untouched, and a queue with no match is returned
unchanged. -/
def markPublishedScan : List Post → Int → List Post
  | [], _ => []
  | post :: rest, post_id =>
    if post.id = some post_id then
      { post with published := some true } :: rest
    else
      post :: markPublishedScan rest post_id

/-- bot.py mark_published: run the scan, then save_queue the (whole)
resulting queue.  The function is total: an absent or unmatched id raises
nothing. -/
def mark_published (queue : List Post) (post_id : Int) : List Post × FileData :=
  let q := markPublishedScan queue post_id
  (q, save_queue q)

/-- One iteration of bot.py publish_loop, with the messaging collaborator
abstracted as `send : String → Bool` (send_post catches every exception and
returns False).  The tick loads the queue (propagating a storage error),
selects the next post, reads post["id"] (for the log line) and post["text"]
(for send_post) — each a KeyError when absent — and on a successful send
calls mark_published; on a failed send it writes nothing. -/
def publish_tick (send : String → Bool) (fs : FileData) : Except PyErr FileData :=
  match load_queue fs with
  | .error e => .error e
  | .ok queue =>
    match get_next_post queue with
    | none => .ok fs
    | some post =>
      match post.id with
      | none => .error .keyError
      | some post_id =>
        match post.text with
        | none => .error .keyError
        | some txt =>
          if send txt then .ok (mark_published queue post_id).2
          else .ok fs

/-- The file states a concurrent reader can observe while bot.py save_queue
runs: `open(QUEUE_FILE, "w")` truncates the file the moment it is opened,
and until json.dump finishes the file holds a strict prefix of the JSON
text, which does not parse as JSON (`malformedFile`); only after the dump
completes does the file hold the full snapshot. -/
def save_queue_observable (queue : List Post) : List FileData :=
  [FileData.malformedFile, FileData.queueFile queue]

/-- Modelled from the spec: "Must not leave a partially written file visible
to concurrent readers ... an equivalent atomic-replace mechanism" — an
atomic replace of the file by the snapshot of `queue` lets a concurrent
reader observe only the previous file state or the complete new one. -/
def atomicReplaceVisible (prev : FileData) (queue : List Post)
    (states : List FileData) : Prop :=
  ∀ s ∈ states, s = prev ∨ s = FileData.queueFile queue

end Bot

namespace ContentGenerator

/-- content_generator.py: QUEUE_FILE = Path(__file__).parent /
"content_queue.json"; content_generator.py lives in the same src directory
as bot.py. -/
def QUEUE_FILE : String := "src/content_queue.json"

/-- content_generator.py load_queue: textually identical to bot.py
load_queue. -/
def load_queue : FileData → Except PyErr (List Post)
  | .absent => .ok []
  | .queueFile q => .ok q
  | .malformedFile => .error .storageError

/-- content_generator.py save_queue: textually identical to bot.py
save_queue. -/
def save_queue (queue : List Post) : FileData :=
  .queueFile queue

/-- content_generator.py get_next_id: 1 for an empty queue, else
`max(post.get("id", 0) for post in queue) + 1`. -/
def get_next_id (queue : List Post) : Int :=
  match queue.map (fun post => post.id.getD 0) with
  | [] => 1
  | v :: vs => vs.foldl max v + 1

/-- content_generator.py generate_and_queue, with the generative-text
collaborator abstracted as its result `gen : Option String` (generate_post
catches every exception and returns None).  `if not text: return False`
rejects both None and the empty string; otherwise the queue is loaded
(propagating a storage error), a new post is built with title "Generated",
the stripped text, published False and get_next_id, appended, saved, and
True is returned. -/
def generate_and_queue (gen : Option String) (fs : FileData) :
    Except PyErr (Bool × FileData) :=
  match gen with
  | none => .ok (false, fs)
  | some text =>
    if text = "" then .ok (false, fs)
    else
      match load_queue fs with
      | .error e => .error e
      | .ok queue =>
        let new_post : Post :=
          { id := some (get_next_id queue), title := some "Generated",
            text := some (pyStrip text), published := some false }
        .ok (true, save_queue (queue ++ [new_post]))

end ContentGenerator

/-- Every post published (flag `some true`) in `old` is still published at
the same position of `new`. -/
def publishedPreserved (old new : List Post) : Prop :=
  ∀ i p, old.get? i = some p → p.published = some true →
    ∃ p2, new.get? i = some p2 ∧ p2.published = some true

/-! ## Helper lemmas -/

theorem decodePost_postToJson (p : Post) : decodePost (postToJson p) = some p := by
  obtain ⟨i, t, x, b⟩ := p
  cases i <;> cases t <;> cases x <;> cases b <;> rfl

theorem markPublishedScan_no_match (queue : List Post) (pid : Int)
    (h : ∀ p ∈ queue, p.id ≠ some pid) :
    Bot.markPublishedScan queue pid = queue := by
  induction queue with
  | nil => rfl
  | cons p rest ih =>
    simp only [Bot.markPublishedScan]
    rw [if_neg (h p (List.mem_cons_self p rest))]
    rw [ih (fun q hq => h q (List.mem_cons_of_mem p hq))]

theorem markPublishedScan_first_match (pre suf : List Post) (p : Post) (pid : Int)
    (hpre : ∀ x ∈ pre, x.id ≠ some pid) (hp : p.id = some pid) :
    Bot.markPublishedScan (pre ++ p :: suf) pid
      = pre ++ { p with published := some true } :: suf := by
  induction pre with
  | nil => simp only [List.nil_append, Bot.markPublishedScan, if_pos hp]
  | cons x xs ih =>
    have hstep : Bot.markPublishedScan (x :: (xs ++ p :: suf)) pid
        = x :: Bot.markPublishedScan (xs ++ p :: suf) pid := by
      simp only [Bot.markPublishedScan]
      rw [if_neg (hpre x (List.mem_cons_self x xs))]
    rw [List.cons_append, hstep,
      ih (fun y hy => hpre y (List.mem_cons_of_mem x hy)), List.cons_append]

theorem publishedPreserved_refl (q : List Post) : publishedPreserved q q := by
  intro i p h hp
  exact ⟨p, h, hp⟩

theorem publishedPreserved_append (q tail : List Post) :
    publishedPreserved q (q ++ tail) := by
  intro i p h hp
  have hlt : i < q.length := by
    by_contra hge
    rw [List.get?_eq_none.mpr (Nat.le_of_not_lt hge)] at h
    cases h
  exact ⟨p, by rw [List.get?_append hlt]; exact h, hp⟩

theorem publishedPreserved_scan (q : List Post) (pid : Int) :
    publishedPreserved q (Bot.markPublishedScan q pid) := by
  induction q with
  | nil =>
    intro i p h hp
    rw [List.get?_nil] at h
    cases h
  | cons x rest ih =>
    intro i p h hp
    by_cases hx : x.id = some pid
    · have hscan : Bot.markPublishedScan (x :: rest) pid
          = { x with published := some true } :: rest := by
        simp only [Bot.markPublishedScan]
        rw [if_pos hx]
      cases i with
      | zero =>
        refine ⟨{ x with published := some true }, ?_, rfl⟩
        rw [hscan]
        rfl
      | succ n =>
        rw [List.get?_cons_succ] at h
        refine ⟨p, ?_, hp⟩
        rw [hscan, List.get?_cons_succ]
        exact h
    · have hscan : Bot.markPublishedScan (x :: rest) pid
          = x :: Bot.markPublishedScan rest pid := by
        simp only [Bot.markPublishedScan]
        rw [if_neg hx]
      cases i with
      | zero =>
        rw [List.get?_cons_zero] at h
        obtain rfl : x = p := Option.some.inj h
        refine ⟨x, ?_, hp⟩
        rw [hscan]
        rfl
      | succ n =>
        rw [List.get?_cons_succ] at h
        obtain ⟨p2, hp2, hpb⟩ := ih n p h hp
        refine ⟨p2, ?_, hpb⟩
        rw [hscan, List.get?_cons_succ]
        exact hp2

theorem foldl_max_init_le (l : List Int) (a : Int) : a ≤ l.foldl max a := by
  induction l generalizing a with
  | nil => exact le_refl a
  | cons x xs ih => exact le_trans (le_max_left a x) (ih (max a x))

theorem le_foldl_max_of_mem (l : List Int) (a x : Int) (hx : x ∈ l) :
    x ≤ l.foldl max a := by
  induction l generalizing a with
  | nil => cases hx
  | cons y ys ih =>
    rcases List.mem_cons.mp hx with h | h
    · subst h
      exact le_trans (le_max_right a x) (foldl_max_init_le ys (max a x))
    · exact ih (max a y) h

theorem map_getD_eq_filterMap (Q : List Post)
    (h : ∀ p ∈ Q, (p.id).isSome = true) :
    Q.map (fun post => post.id.getD 0) = Q.filterMap Post.id := by
  induction Q with
  | nil => rfl
  | cons p rest ih =>
    have hp := h p (List.mem_cons_self p rest)
    obtain ⟨n, hn⟩ := Option.isSome_iff_exists.mp hp
    simp [List.filterMap_cons, hn,
      ih (fun q hq => h q (List.mem_cons_of_mem p hq))]

/-! ## Claim theorems -/

/-- C1: get_next_post returns the first post in insertion order whose
effective published flag is false (an absent flag defaults to false, the
data model's default), and returns none exactly when the queue is empty or
every post is published; a returned post always has its published flag
false, never true. -/
theorem get_next_post_first_unpublished (Q : List Post) :
    (Bot.get_next_post Q = none ↔ ∀ p ∈ Q, p.published.getD false = true) ∧
    (∀ p, Bot.get_next_post Q = some p →
      p.published.getD false = false ∧
      ∃ pre suf, Q = pre ++ p :: suf ∧
        ∀ x ∈ pre, x.published.getD false = true) := by
  induction Q with
  | nil =>
    constructor
    · simp [Bot.get_next_post]
    · intro p hp
      exact absurd hp (by simp [Bot.get_next_post])
  | cons q rest ih =>
    have hunf : Bot.get_next_post (q :: rest)
        = if q.published.getD false then Bot.get_next_post rest else some q := rfl
    by_cases hq : q.published.getD false = true
    · rw [hunf, if_pos hq]
      constructor
      · rw [ih.1]
        constructor
        · intro hall p hp
          rcases List.mem_cons.mp hp with h | h
          · rw [h]; exact hq
          · exact hall p h
        · intro hall p hp
          exact hall p (List.mem_cons_of_mem q hp)
      · intro p hp
        obtain ⟨hflag, pre, suf, heq, hpre⟩ := ih.2 p hp
        refine ⟨hflag, q :: pre, suf, by rw [heq, List.cons_append], ?_⟩
        intro x hx
        rcases List.mem_cons.mp hx with h | h
        · rw [h]; exact hq
        · exact hpre x h
    · rw [hunf, if_neg hq]
      have hq2 : q.published.getD false = false := by
        simpa using hq
      constructor
      · constructor
        · intro h; exact absurd h (by simp)
        · intro hall
          exact absurd (hall q (List.mem_cons_self q rest)) hq
      · intro p hp
        have hqp : q = p := Option.some.inj hp
        subst hqp
        exact ⟨hq2, [], rest, rfl, by intro x hx; cases hx⟩

/-- C2: mark_published sets published = true on the (first) post whose id
matches and persists the whole resulting queue; when no post has that id it
changes no post but still persists the unchanged queue; being a total
function, it never signals an error. -/
theorem mark_published_updates_and_persists (queue : List Post) (pid : Int) :
    (Bot.mark_published queue pid).2
        = Bot.save_queue (Bot.mark_published queue pid).1 ∧
    ((∀ p ∈ queue, p.id ≠ some pid) →
      (Bot.mark_published queue pid).1 = queue) ∧
    (∀ pre p suf, queue = pre ++ p :: suf →
      (∀ x ∈ pre, x.id ≠ some pid) → p.id = some pid →
      (Bot.mark_published queue pid).1
        = pre ++ { p with published := some true } :: suf) := by
  refine ⟨rfl, fun h => markPublishedScan_no_match queue pid h, ?_⟩
  rintro pre p suf rfl hpre hp
  exact markPublishedScan_first_match pre suf p pid hpre hp

/-- C7: load_queue returns the empty queue when the persisted file does not
exist, and propagates a storage error (json.load's decode failure) to the
caller when the persisted data is malformed. -/
theorem load_queue_missing_and_malformed :
    Bot.load_queue FileData.absent = Except.ok [] ∧
    Bot.load_queue FileData.malformedFile = Except.error PyErr.storageError :=
  ⟨rfl, rfl⟩

/-- C9: saving a loaded queue reproduces an observably equivalent persisted
state: load after save is the identity on queues, and at the serialization
layer the JSON text written for a queue decodes back to exactly the same
posts (same ids, titles, texts, published flags, same order). -/
theorem queue_state_roundtrip (q : List Post) :
    Bot.load_queue (Bot.save_queue q) = Except.ok q ∧
    decodeQueue (encodeQueue q) = some q := by
  refine ⟨rfl, ?_⟩
  show decodePosts (q.map postToJson) = some q
  induction q with
  | nil => rfl
  | cons p rest ih =>
    simp only [List.map_cons, decodePosts, decodePost_postToJson p, ih]

/-- C10: the duplicated queue-store implementations of bot.py and
content_generator.py agree: they use the same queue file path and compute
identical load and save functions, so Publisher and Generator observe the
same queue semantics. -/
theorem queue_store_duplicates_agree :
    Bot.QUEUE_FILE = ContentGenerator.QUEUE_FILE ∧
    (∀ fs : FileData, Bot.load_queue fs = ContentGenerator.load_queue fs) ∧
    (∀ q : List Post, Bot.save_queue q = ContentGenerator.save_queue q) := by
  refine ⟨rfl, fun fs => ?_, fun q => rfl⟩
  cases fs <;> rfl

/-- C3: on a publish tick where delivery fails (send returns false), the
Publisher does not mark the post published, does not remove it and performs
no persisted-state write: the tick leaves the file state exactly as it was,
so the next tick loads the same queue and selects the same post. -/
theorem publish_tick_failure (send : String → Bool) (fs : FileData)
    (q : List Post) (post : Post) (pid : Int) (txt : String)
    (hload : Bot.load_queue fs = Except.ok q)
    (hnext : Bot.get_next_post q = some post)
    (hid : post.id = some pid)
    (htxt : post.text = some txt)
    (hfail : send txt = false) :
    Bot.publish_tick send fs = Except.ok fs := by
  unfold Bot.publish_tick
  simp [hload, hnext, hid, htxt, hfail]

theorem publish_tick_failure_witness :
    Bot.publish_tick (fun _ => false)
        (FileData.queueFile
          [{ id := some 1, title := some "t", text := some "a",
             published := some false }])
      = Except.ok (FileData.queueFile
          [{ id := some 1, title := some "t", text := some "a",
             published := some false }]) :=
  publish_tick_failure (fun _ => false) _ _ _ 1 "a" rfl rfl rfl rfl rfl

/-- C4: no queue operation moves a published flag from true back to false:
the mark_published scan, appending a post (as generate_and_queue does) and
save_queue all keep every post published in the input queue published at
the same position of the output. -/
theorem published_flag_never_reverts (q : List Post) (pid : Int) (p2 : Post)
    (gen : Option String) :
    publishedPreserved q (Bot.mark_published q pid).1 ∧
    publishedPreserved q (q ++ [p2]) ∧
    Bot.save_queue q = FileData.queueFile q ∧
    (∀ b fs2, ContentGenerator.generate_and_queue gen (FileData.queueFile q)
        = Except.ok (b, fs2) →
      ∀ q2, ContentGenerator.load_queue fs2 = Except.ok q2 →
        publishedPreserved q q2) := by
  refine ⟨publishedPreserved_scan q pid, publishedPreserved_append q [p2], rfl, ?_⟩
  intro b fs2 hgen q2 hq2
  cases gen with
  | none =>
    have hg : ContentGenerator.generate_and_queue none (FileData.queueFile q)
        = Except.ok (false, FileData.queueFile q) := rfl
    rw [hg] at hgen
    injection hgen with h
    injection h with h1 h2
    subst h2
    have h3 : (Except.ok q : Except PyErr (List Post)) = Except.ok q2 := hq2
    injection h3 with h4
    subst h4
    exact publishedPreserved_refl q
  | some text =>
    by_cases ht : text = ""
    · subst ht
      have hg : ContentGenerator.generate_and_queue (some "") (FileData.queueFile q)
          = Except.ok (false, FileData.queueFile q) := rfl
      rw [hg] at hgen
      injection hgen with h
      injection h with h1 h2
      subst h2
      have h3 : (Except.ok q : Except PyErr (List Post)) = Except.ok q2 := hq2
      injection h3 with h4
      subst h4
      exact publishedPreserved_refl q
    · have hg : ContentGenerator.generate_and_queue (some text) (FileData.queueFile q)
          = Except.ok (true, FileData.queueFile (q ++
              [{ id := some (ContentGenerator.get_next_id q),
                 title := some "Generated", text := some (pyStrip text),
                 published := some false }])) := by
        simp [ContentGenerator.generate_and_queue, ht, ContentGenerator.load_queue,
          ContentGenerator.save_queue]
      rw [hg] at hgen
      injection hgen with h
      injection h with h1 h2
      subst h2
      have h3 : (Except.ok (q ++
          [{ id := some (ContentGenerator.get_next_id q),
             title := some "Generated", text := some (pyStrip text),
             published := some false }]) : Except PyErr (List Post))
          = Except.ok q2 := hq2
      injection h3 with h4
      subst h4
      exact publishedPreserved_append q _

/-- C5 (amended): generate_and_queue either (when the collaborator returns a
non-empty text) appends exactly one new post at the tail with placeholder
title "Generated", the stripped generated text (which is empty when the
generated text is whitespace-only), published = false and the next available
id, then persists the whole queue and returns true; or (on collaborator
error, i.e. None, or an empty result) returns false and leaves the persisted
queue entirely unmutated. -/
theorem generate_and_queue_cases (gen : Option String) (fs : FileData) :
    (gen = none →
      ContentGenerator.generate_and_queue gen fs = Except.ok (false, fs)) ∧
    (gen = some "" →
      ContentGenerator.generate_and_queue gen fs = Except.ok (false, fs)) ∧
    (∀ text q, gen = some text → text ≠ "" →
      ContentGenerator.load_queue fs = Except.ok q →
      ContentGenerator.generate_and_queue gen fs
        = Except.ok (true, ContentGenerator.save_queue (q ++
            [{ id := some (ContentGenerator.get_next_id q),
               title := some "Generated", text := some (pyStrip text),
               published := some false }]))) := by
  refine ⟨?_, ?_, ?_⟩
  · rintro rfl
    rfl
  · rintro rfl
    rfl
  · rintro text q rfl ht hload
    simp [ContentGenerator.generate_and_queue, ht, hload]

/-- C5 counterexample: on the whitespace-only generated text " " (a
non-empty string), generate_and_queue appends a post whose text is the
empty string — not a non-empty text as the data model requires. -/
theorem generate_and_queue_whitespace_counterexample :
    (" " = "") = False ∧
    ContentGenerator.generate_and_queue (some " ") (FileData.queueFile [])
      = Except.ok (true, FileData.queueFile
          [{ id := some 1, title := some "Generated", text := some "",
             published := some false }]) := by
  exact ⟨by simp, rfl⟩

/-- C6: get_next_id returns 1 on the empty queue; it returns a value
strictly greater than every id a post of the queue carries; and when the
queue is non-empty and every post carries an id (as the data model
requires), it returns max(existing ids) + 1. -/
theorem get_next_id_spec (Q : List Post) :
    (Q = [] → ContentGenerator.get_next_id Q = 1) ∧
    (∀ p ∈ Q, ∀ n : Int, p.id = some n → n < ContentGenerator.get_next_id Q) ∧
    ((∀ p ∈ Q, (p.id).isSome = true) → ∀ m : Int,
      (Q.filterMap Post.id).max? = some m →
      ContentGenerator.get_next_id Q = m + 1) := by
  refine ⟨?_, ?_, ?_⟩
  · rintro rfl
    rfl
  · intro p hp n hn
    cases Q with
    | nil => cases hp
    | cons q rest =>
      have hfp : p.id.getD 0 = n := by rw [hn]; rfl
      have hle : p.id.getD 0
          ≤ (rest.map (fun post => post.id.getD 0)).foldl max (q.id.getD 0) := by
        rcases List.mem_cons.mp hp with h | h
        · rw [h]
          exact foldl_max_init_le _ _
        · exact le_foldl_max_of_mem _ _ _
            (List.mem_map_of_mem (fun post => post.id.getD 0) h)
      have hid : ContentGenerator.get_next_id (q :: rest)
          = (rest.map (fun post => post.id.getD 0)).foldl max (q.id.getD 0) + 1 := rfl
      rw [hid]
      rw [hfp] at hle
      omega
  · intro hall m hm
    cases Q with
    | nil =>
      rw [List.filterMap_nil] at hm
      cases hm
    | cons q rest =>
      rw [← map_getD_eq_filterMap _ hall] at hm
      have hm2 : some ((rest.map (fun post => post.id.getD 0)).foldl max
          (q.id.getD 0)) = some m := hm
      injection hm2 with hm3
      have hid : ContentGenerator.get_next_id (q :: rest)
          = (rest.map (fun post => post.id.getD 0)).foldl max (q.id.getD 0) + 1 := rfl
      rw [hid, hm3]

/-- C8 counterexample: saving the empty queue over a previously absent file
is not an atomic replace: the truncated (malformed) intermediate state is
visible and is neither the previous state nor the new snapshot. -/
theorem save_queue_not_atomic_counterexample :
    ¬ Bot.atomicReplaceVisible FileData.absent []
        (Bot.save_queue_observable []) := by
  intro h
  rcases h FileData.malformedFile (List.mem_cons_self _ _) with h1 | h1 <;>
    exact FileData.noConfusion h1

/-- C8 (amended): save_queue overwrites the queue file in place —
open(QUEUE_FILE, "w") truncates the file before json.dump writes the
snapshot — so during a save a concurrent reader can observe a truncated,
malformed file; the write is not a temporary-file-then-rename atomic
replace (for any previous non-malformed file state, a visible intermediate
state is neither the old contents nor the new snapshot), and only the final
observable state holds the full snapshot. -/
theorem save_queue_overwrites_in_place (queue : List Post) (prev : FileData) :
    FileData.malformedFile ∈ Bot.save_queue_observable queue ∧
    (Bot.save_queue_observable queue).getLast?
        = some (FileData.queueFile queue) ∧
    (prev ≠ FileData.malformedFile →
      ¬ Bot.atomicReplaceVisible prev queue (Bot.save_queue_observable queue)) := by
  refine ⟨List.mem_cons_self _ _, rfl, ?_⟩
  intro hprev h
  rcases h FileData.malformedFile (List.mem_cons_self _ _) with h1 | h1
  · exact hprev h1.symm
  · exact FileData.noConfusion h1
